import Mathlib

/-!
Verification of the request-ssl certificate-pinning library (`lib/index.js`).

The development shallowly embeds the pinning core: the fingerprint registry
(`fingerprints`, `addFingerprint`, `removeFingerprint`, `getFingerprintForURL`,
`getDomain`), the error catalog (`ERRORS`, `createErrorMessage`,
`RequestSSLError`), and the HTTPS interception protocol of `Request`
(the `secureConnect` and `response` handlers together with the single-fire
`wrappedCallback` latch).  JavaScript strings are Lean `String`s, JS objects
used as maps are functions into `Option String` (`none` = absent key), thrown
exceptions are `Except.error`, and the two asynchronous transport signals are
an explicit event list folded over the exchange state.
-/

namespace RequestSSL

/-- The process-wide registry `var fingerprints = {}`: a JS object mapping a
domain pattern to a fingerprint string.  `none` models an absent key. -/
abbrev Registry := String → Option String

/-- The initial empty registry. -/
def emptyFingerprints : Registry := fun _ => none

/-- JS truthiness of a looked-up value: `undefined` (here `none`) and the empty
string are falsy, every other string is truthy. -/
def jsTruthyOpt : Option String → Bool
  | none => false
  | some s => s != ""

/-- Whitespace class of the JS regex `\s` (restricted to the ASCII range used
by fingerprint labels). -/
def isJsSpace (c : Char) : Bool :=
  c == ' ' || c == '\t' || c == '\n' || c == '\r' || c == '\x0b' || c == '\x0c'

/-- Model of Node's legacy `url.parse(s).host` for the URL shapes this library
receives (no userinfo, hash or query in front of the host): when the string
contains a `://` scheme separator the host is everything after the first `://`
up to the next `/`, `?` or `#`; otherwise `url.parse` puts the whole input in
`pathname` and `host` is `null` (`none`).  Note that the port is part of
`host` (`url.parse` exposes the port-free name as `hostname`, which this
library never uses). -/
def hostAfterSlashes : List Char → Option (List Char)
  | ':' :: '/' :: '/' :: rest =>
      some (rest.takeWhile fun c => c != '/' && c != '?' && c != '#')
  | _ :: rest => hostAfterSlashes rest
  | [] => none

/-- `urlib.parse(s).host`, as a `String` operation. -/
def jsUrlParseHost (s : String) : Option String :=
  (hostAfterSlashes s.data).map fun cs => String.mk cs

/-- Character class of Node's URL protocol pattern `[a-z0-9.+-]+` (matched
case-insensitively). -/
def isProtoChar (c : Char) : Bool :=
  c.isAlphanum || c == '.' || c == '+' || c == '-'

/-- Model of Node's legacy `url.parse(s).protocol`: a non-empty leading run of
protocol characters immediately followed by `:`, reported lowercased and with
the trailing colon; `none` otherwise. -/
def jsUrlParseProtocol (s : String) : Option String :=
  let pre := s.data.takeWhile isProtoChar
  match s.data.drop pre.length with
  | ':' :: _ =>
      if pre.isEmpty then none
      else some (String.mk (pre.map Char.toLower ++ [':']))
  | _ => none

/-- `getDomain(url)` (lib/index.js lines 168-171) for string inputs:
`urlib.parse(url).host || url` — the parsed host when it is truthy, otherwise
the input itself. -/
def getDomain (url : String) : String :=
  match jsUrlParseHost url with
  | some h => if h = "" then url else h
  | none => url

/-- JS `String.prototype.split('.')`, on character lists. -/
def splitOnDot : List Char → List (List Char)
  | [] => [[]]
  | '.' :: rest => [] :: splitOnDot rest
  | c :: rest =>
      match splitOnDot rest with
      | [] => [[c]]
      | t :: ts => (c :: t) :: ts

/-- JS `Array.prototype.join('.')`, on character lists. -/
def joinDot : List (List Char) → List Char
  | [] => []
  | [t] => t
  | t :: ts => t ++ '.' :: joinDot ts

/-- The wildcard key derived inside `getFingerprintForURL` (lib/index.js lines
183-185): `'*.' + tokens.splice(tokens.length > 1 ? 0 : 1).join('.')` where
`tokens = (urlib.parse(domain).host || domain).split('.')`.
`Array.prototype.splice(start)` with a single argument removes and returns the
elements from index `start` through the end, i.e. `tokens.drop start`. -/
def wildcardDomain (domain : String) : String :=
  let base :=
    match jsUrlParseHost domain with
    | some h => if h = "" then domain else h
    | none => domain
  let tokens := splitOnDot base.data
  String.mk ('*' :: '.' :: joinDot (tokens.drop (if tokens.length > 1 then 0 else 1)))

/-- `getFingerprintForURL(url)` (lib/index.js lines 177-190): exact lookup of
the normalized domain; when the result is falsy, a second lookup of the
derived wildcard key; the second result is returned as-is. -/
def getFingerprintForURL (reg : Registry) (url : String) : Option String :=
  if jsTruthyOpt (reg (getDomain url)) then reg (getDomain url)
  else reg (wildcardDomain (getDomain url))

/-- The label stripping in `addFingerprint` (lib/index.js line 214):
`fingerprint.replace(/^SHA1\sFingerprint=(.*)/, '$1')`.  When the input starts
with `SHA1`, one `\s` character and `Fingerprint=`, the match (up to the end of
the first line) is replaced by its capture group, which leaves exactly the
characters after the first 17; otherwise the input is unchanged. -/
def stripSHA1Label (f : String) : String :=
  match f.data with
  | 'S' :: 'H' :: 'A' :: '1' :: w :: rest =>
      if isJsSpace w && "Fingerprint=".data.isPrefixOf rest then
        String.mk (rest.drop 12)
      else f
  | _ => f

/-- `Request.addFingerprint(url, fingerprint)` (lib/index.js lines 210-217):
throws on a falsy url or fingerprint, otherwise stores the stripped
fingerprint under the normalized domain, overwriting any previous value.
A thrown JS `Error` is modelled as `Except.error` of its message. -/
def addFingerprint (url fingerprint : String) (reg : Registry) :
    Except String Registry :=
  if url = "" then Except.error "missing name"
  else if fingerprint = "" then Except.error "missing fingerprint"
  else
    Except.ok fun k =>
      if k = getDomain url then some (stripSHA1Label fingerprint) else reg k

/-- The registry after a call to `addFingerprint`: on a throw the shared
`fingerprints` object is left untouched. -/
def addFingerprintRun (url fingerprint : String) (reg : Registry) : Registry :=
  match addFingerprint url fingerprint reg with
  | Except.ok r => r
  | Except.error _ => reg

/-- `Request.removeFingerprint(name)` (lib/index.js lines 222-226). -/
def removeFingerprint (name : String) (reg : Registry) : Registry :=
  fun k => if k = getDomain name then none else reg k

/-- `Request.removeAllFingerprints()` (lib/index.js lines 231-234). -/
def removeAllFingerprints (_reg : Registry) : Registry :=
  emptyFingerprints

/-- A sequence of registrations of the same url with successive fingerprint
texts. -/
def registerSeq (u : String) (fs : List String) (reg : Registry) : Registry :=
  fs.foldl (fun r f => addFingerprintRun u f r) reg

/-- The structured error built by `RequestSSLError` (lib/index.js lines
122-129): a message plus a machine-checkable `id`.  The constant
`name = 'RequestSSLError'` field is omitted as it never varies. -/
structure RequestSSLError where
  message : String
  id : String
deriving DecidableEq, Repr

/-- One row of the `ERRORS` table: a message template and a required argument
count. -/
structure ErrorEntry where
  message : String
  argcount : Nat
deriving DecidableEq, Repr

/-- Template of the `request.ssl.security.domain.invalid` entry. -/
def msgInvalid : String :=
  "SSL authorization failed. URL: %s does not have a valid fingerprint which can be used to verify the SSL certificate."

/-- Template of the `request.ssl.security.domain.notauthorized` entry. -/
def msgNotAuthorized : String :=
  "SSL authorization failed. URL to %s is not authorized for SSL."

/-- Template of the `request.ssl.security.domain.fingerprint.mismatch`
entry. -/
def msgMismatch : String :=
  "SSL authorization failed. URL to %s is not authorized for SSL. Mismatched SSL fingerprint. This likely means that the URL doesn\x27t point to the expected server or there is an unexpected man-in-the-middle."

/-- The `ERRORS` table (lib/index.js lines 131-144). -/
def ERRORS : List (String × ErrorEntry) :=
  [("request.ssl.security.domain.invalid", { message := msgInvalid, argcount := 1 }),
   ("request.ssl.security.domain.notauthorized", { message := msgNotAuthorized, argcount := 1 }),
   ("request.ssl.security.domain.fingerprint.mismatch", { message := msgMismatch, argcount := 1 })]

/-- The JS membership test `errorcode in ERRORS` together with the access
`ERRORS[errorcode]`. -/
def errLookup (code : String) : Option ErrorEntry :=
  (ERRORS.find? fun p => p.1 == code).map fun p => p.2

/-- The `%s` substitution of `util.format(template, ...args)`: each `%s` is
replaced by the next argument in order, extra arguments are appended separated
by spaces, and placeholders without a remaining argument are left verbatim.
(The templates in `ERRORS` use no other placeholder kind.) -/
def substArgs : List Char → List String → List Char
  | '%' :: 's' :: rest, a :: as => a.data ++ substArgs rest as
  | c :: rest, args => c :: substArgs rest args
  | [], args => args.foldl (fun acc a => acc ++ ' ' :: a.data) []

/-- `util.format` on a template and string arguments. -/
def utilFormat (tpl : String) (args : List String) : String :=
  String.mk (substArgs tpl.data args)

/-- `createErrorMessage(errorcode, ...args)` (lib/index.js lines 149-163).
An unknown code, or a known code whose truthy `argcount` differs from the
number of supplied arguments, throws a plain `Error` (modelled as
`Except.error`, carrying the message up to the runtime stack trace);
otherwise a `RequestSSLError` with the formatted message and the code as `id`
is returned. -/
def createErrorMessage (errorcode : String) (args : List String) :
    Except String RequestSSLError :=
  match errLookup errorcode with
  | some entry =>
      if entry.argcount ≠ 0 ∧ entry.argcount ≠ args.length then
        Except.error ("Internal failure. Unexpected usage of internal command. Please report error code: " ++ errorcode ++ "(invalid args) to the developer with the following stack trace:")
      else
        Except.ok
          { message :=
              if args.length ≠ 0 then utilFormat entry.message args
              else entry.message,
            id := errorcode }
  | none =>
      Except.error ("Internal failure. Unexpected usage of internal command. Please report error code: " ++ errorcode ++ "(invalid error code) to the developer with the following stack trace:")

/-- The error value a handler passes to the wrapped callback.  Inside
`Request` every call site supplies a known code with exactly one argument, so
the construction never throws (lemmas `createErrorMessage_invalid_eq`,
`createErrorMessage_notauthorized_eq`, `createErrorMessage_mismatch_eq`); the
fallback value is unreachable there. -/
def pinError (code arg : String) : RequestSSLError :=
  match createErrorMessage code [arg] with
  | Except.ok e => e
  | Except.error _ => { message := "", id := "" }

/-- The two transport signals the HTTPS interception protocol listens to:
`secureConnect` on the socket (carrying `socket.authorized`) and `response`
on the request (carrying the final resolved host `resp.request.uri.host` and
the peer certificate fingerprint). -/
inductive TransportEvent where
  | secureConnect (authorized : Bool)
  | response (host : String) (fingerprint : String)
deriving DecidableEq, Repr

/-- How an error reaches the caller through `wrappedCallback`: either the
caller-supplied completion callback is invoked, or (when none was supplied)
an `error` event is emitted on the request object. -/
inductive PinDelivery where
  | toCallback (e : RequestSSLError)
  | asEvent (e : RequestSSLError)
deriving DecidableEq, Repr

/-- The mutable closure state of `wrappedCallback` (lib/index.js lines
60-73): `hasCallback` and whether `originalCallback` is still non-null. -/
structure Latch where
  hasCallback : Bool
  originalAlive : Bool
deriving DecidableEq, Repr

/-- The latch as initialized at lines 60-62: `hasCallback` records whether the
caller supplied a callback, and `originalCallback = hasCallback && callback`
is non-null exactly when it did. -/
def latchInit (hasCb : Bool) : Latch := ⟨hasCb, hasCb⟩

/-- One invocation of `wrappedCallback` with an error argument: if a live
original callback exists it is invoked and nulled out; otherwise, if no
callback was supplied, `hasCallback` is set (so this branch runs once) and the
error is emitted as an `error` event; otherwise nothing happens. -/
def wrappedStep (l : Latch) (e : RequestSSLError) : Latch × Option PinDelivery :=
  if l.hasCallback && l.originalAlive then
    ({ l with originalAlive := false }, some (PinDelivery.toCallback e))
  else if !l.hasCallback then
    ({ l with hasCallback := true }, some (PinDelivery.asEvent e))
  else (l, none)

/-- Per-exchange state: the closure variable `url` (reassigned by each
`response` event), the callback latch, the deliveries that reached the caller
and the number of `req.abort()` calls. -/
structure ExchangeState where
  url : String
  latch : Latch
  deliveries : List PinDelivery
  aborts : Nat
deriving DecidableEq, Repr

/-- Route an error through `wrappedCallback`, recording the delivery (if any)
in order. -/
def fireCallback (s : ExchangeState) (e : RequestSSLError) : ExchangeState :=
  { s with
    latch := (wrappedStep s.latch e).1,
    deliveries := s.deliveries ++ (wrappedStep s.latch e).2.toList }

/-- The decision a handler takes on one signal (lib/index.js lines 75-114),
before the latch is consulted: the new value of the closure variable `url`,
and the pinning error to report, if any.
* `secureConnect`: an authorized socket is a no-op (the check is deferred to
  the response); an unauthorized one aborts with `domain.notauthorized`
  formatted with the current `url`.
* `response`: `url` is first reassigned to the response's final host; a falsy
  `getFingerprintForURL` result aborts with `domain.invalid`, a truthy one
  differing from the observed certificate fingerprint aborts with
  `domain.fingerprint.mismatch`, and an equal one lets the response through. -/
def eventDecision (reg : Registry) (url : String) :
    TransportEvent → String × Option RequestSSLError
  | TransportEvent.secureConnect authorized =>
      (url,
        if authorized then none
        else some (pinError "request.ssl.security.domain.notauthorized" url))
  | TransportEvent.response host fp =>
      (host,
        match getFingerprintForURL reg host with
        | none => some (pinError "request.ssl.security.domain.invalid" host)
        | some m =>
            if m = "" then some (pinError "request.ssl.security.domain.invalid" host)
            else if m = fp then none
            else some (pinError "request.ssl.security.domain.fingerprint.mismatch" host))

/-- Process one transport signal: apply the handler decision, and on a reject
run `req.abort()` followed by the wrapped callback. -/
def handleEvent (reg : Registry) (s : ExchangeState) (ev : TransportEvent) :
    ExchangeState :=
  match eventDecision reg s.url ev with
  | (url2, none) => { s with url := url2 }
  | (url2, some e) =>
      fireCallback { s with url := url2, aborts := s.aborts + 1 } e

/-- The exchange state right after `Request` returns, before any signal. -/
def initExchange (url : String) (hasCb : Bool) : ExchangeState :=
  ⟨url, latchInit hasCb, [], 0⟩

/-- A whole exchange (lib/index.js lines 40-117): the pinning machinery —
handlers and callback wrapper — is installed only when
`urlib.parse(url).protocol === 'https:'`; otherwise the underlying `request`
is returned untouched and no signal is intercepted. -/
def runExchange (reg : Registry) (url : String) (hasCb : Bool)
    (events : List TransportEvent) : ExchangeState :=
  if jsUrlParseProtocol url = some "https:" then
    events.foldl (handleEvent reg) (initExchange url hasCb)
  else initExchange url hasCb

/-- The sequence of reject decisions an exchange's signals generate, in
order, independent of the latch. -/
def pinErrors (reg : Registry) : String → List TransportEvent → List RequestSSLError
  | _, [] => []
  | url, ev :: rest =>
      ((eventDecision reg url ev).2).toList ++
        pinErrors reg (eventDecision reg url ev).1 rest

/-- The pinning outcome of a single-hop HTTPS exchange against `host`: the
`id` of the first error delivered to the caller when the handshake reports
`authorized` and the response presents `fp`, or `none` when the exchange is
allowed through. -/
def outcomeKind (reg : Registry) (host : String) (authorized : Bool)
    (fp : String) : Option String :=
  ((runExchange reg ("https://" ++ host) true
      [TransportEvent.secureConnect authorized,
       TransportEvent.response host fp]).deliveries.head?).map
    fun d =>
      match d with
      | PinDelivery.toCallback e => e.id
      | PinDelivery.asEvent e => e.id

/-! ## Helper lemmas -/

/-- Once the latch is exhausted (`hasCallback = true`, `originalCallback`
nulled), no further signal adds a delivery. -/
theorem foldl_handleEvent_saturated (reg : Registry) (events : List TransportEvent) :
    ∀ s : ExchangeState, s.latch = ⟨true, false⟩ →
      (events.foldl (handleEvent reg) s).deliveries = s.deliveries := by
  induction events with
  | nil => intro s _; rfl
  | cons ev rest ih =>
    intro s hs
    rw [List.foldl_cons]
    rcases hd : eventDecision reg s.url ev with ⟨url2, e?⟩
    cases e? with
    | none =>
      rw [ih _ (by simp [handleEvent, hd, hs])]
      simp [handleEvent, hd]
    | some e =>
      rw [ih _ (by simp [handleEvent, hd, fireCallback, wrappedStep, hs])]
      simp [handleEvent, hd, fireCallback, wrappedStep, hs]

/-- From a freshly initialized latch, an exchange delivers exactly the first
reject decision of its signal sequence — through the caller's callback when
one was supplied, as an `error` event otherwise. -/
theorem foldl_handleEvent_fresh (reg : Registry) (hasCb : Bool) (events : List TransportEvent) :
    ∀ s : ExchangeState, s.latch = latchInit hasCb →
      (events.foldl (handleEvent reg) s).deliveries
        = s.deliveries ++ ((pinErrors reg s.url events).take 1).map
            (fun e => if hasCb then PinDelivery.toCallback e else PinDelivery.asEvent e) := by
  induction events with
  | nil => intro s _; simp [pinErrors]
  | cons ev rest ih =>
    intro s hs
    rw [List.foldl_cons]
    rcases hd : eventDecision reg s.url ev with ⟨url2, e?⟩
    cases e? with
    | none =>
      rw [ih _ (by simp [handleEvent, hd, hs])]
      simp [handleEvent, hd, pinErrors]
    | some e =>
      have hsat : (handleEvent reg s ev).latch = ⟨true, false⟩ := by
        cases hasCb <;>
          simp [handleEvent, hd, fireCallback, wrappedStep, hs, latchInit]
      rw [foldl_handleEvent_saturated reg rest _ hsat]
      cases hasCb <;>
        simp [handleEvent, hd, fireCallback, wrappedStep, hs, latchInit, pinErrors]

/-- Prefixing `https://` always yields an `https:` protocol, whatever the
host. -/
theorem proto_https (host : String) :
    jsUrlParseProtocol ("https://" ++ host) = some "https:" := by
  obtain ⟨l⟩ := host
  rfl

/-- `createErrorMessage` succeeds on the `domain.invalid` code with one
argument, and the `id` is the code. -/
theorem pinError_id_invalid (arg : String) :
    (pinError "request.ssl.security.domain.invalid" arg).id
      = "request.ssl.security.domain.invalid" := rfl

/-- `createErrorMessage` succeeds on the `domain.notauthorized` code with one
argument, and the `id` is the code. -/
theorem pinError_id_notauthorized (arg : String) :
    (pinError "request.ssl.security.domain.notauthorized" arg).id
      = "request.ssl.security.domain.notauthorized" := rfl

/-- `createErrorMessage` succeeds on the `domain.fingerprint.mismatch` code
with one argument, and the `id` is the code. -/
theorem pinError_id_mismatch (arg : String) :
    (pinError "request.ssl.security.domain.fingerprint.mismatch" arg).id
      = "request.ssl.security.domain.fingerprint.mismatch" := rfl

/-! ## Claim theorems -/

/-- Claim C1 (refuted on the code; code bug): the claim says the wildcard
fallback drops the host's leftmost label (`a.b.example.com` consults
`*.b.example.com`, `example.com` consults `*.com`).  The code's
`tokens.splice(tokens.length > 1 ? 0 : 1)` instead keeps every label of a
multi-label host, so lookup of `a.b.example.com` consults
`*.a.b.example.com` — and therefore misses a registered `*.b.example.com`
entry — and lookup of `example.com` consults `*.example.com`, not `*.com`. -/
theorem wildcard_derivation_keeps_all_labels :
    wildcardDomain "a.b.example.com" = "*.a.b.example.com" ∧
    wildcardDomain "example.com" = "*.example.com" ∧
    getFingerprintForURL
        (addFingerprintRun "*.b.example.com" "AA:BB" emptyFingerprints)
        "a.b.example.com" = none := by decide

/-- Claim C2 (refuted on the code; code bug): the claim says a registered
`*.example.com` covers `a.example.com` but not the bare `example.com`.  The
code does exactly the opposite: after registering `*.example.com`, lookup of
`a.example.com` consults `*.a.example.com` and finds nothing, while lookup of
the bare `example.com` consults `*.example.com` and succeeds. -/
theorem wildcard_matches_bare_domain_only :
    getFingerprintForURL
        (addFingerprintRun "*.example.com" "AA:BB" emptyFingerprints)
        "a.example.com" = none ∧
    getFingerprintForURL
        (addFingerprintRun "*.example.com" "AA:BB" emptyFingerprints)
        "example.com" = some "AA:BB" := by decide

/-- Claim C3 counterexample: registering `example.com` with the bare label
`SHA1 Fingerprint=` stores the empty string, so the registry has an entry
equal to an observed empty fingerprint; the claim then demands `Allow`, but
the response handler treats the falsy lookup result as "no fingerprint" and
rejects with `domain.invalid`. -/
theorem empty_stored_fingerprint_not_allow :
    addFingerprintRun "example.com" "SHA1 Fingerprint=" emptyFingerprints
        "example.com" = some "" ∧
    outcomeKind
        (addFingerprintRun "example.com" "SHA1 Fingerprint=" emptyFingerprints)
        "example.com" true "" = some "request.ssl.security.domain.invalid" := by
  decide

/-- Claim C3 (amended): for every registry, host, authorization flag and
observed fingerprint, the pinning decision is: an unauthorized handshake is
`domain.notauthorized` regardless of the fingerprint; otherwise a lookup that
yields nothing — or the empty string, which the code treats as absent — is
`domain.invalid`; otherwise a registered fingerprint differing from the
observed one under case-sensitive exact comparison is
`domain.fingerprint.mismatch`; and an equal one allows the exchange with no
error. -/
theorem pinning_decision_cases (reg : Registry) (host : String) (authorized : Bool)
    (fp : String) :
    outcomeKind reg host authorized fp =
      if authorized then
        match getFingerprintForURL reg host with
        | none => some "request.ssl.security.domain.invalid"
        | some m =>
            if m = "" then some "request.ssl.security.domain.invalid"
            else if m = fp then none
            else some "request.ssl.security.domain.fingerprint.mismatch"
      else some "request.ssl.security.domain.notauthorized" := by
  unfold outcomeKind runExchange
  rw [if_pos (proto_https host)]
  rw [foldl_handleEvent_fresh reg true _ _ rfl]
  cases authorized with
  | false =>
    simp [initExchange, pinErrors, eventDecision, pinError_id_notauthorized]
  | true =>
    cases hm : getFingerprintForURL reg host with
    | none =>
      simp [initExchange, pinErrors, eventDecision, hm, pinError_id_invalid]
    | some m =>
      by_cases hm0 : m = ""
      · simp [initExchange, pinErrors, eventDecision, hm, hm0, pinError_id_invalid]
      · by_cases hmf : m = fp
        · subst hmf
          simp [initExchange, pinErrors, eventDecision, hm, hm0]
        · simp [initExchange, pinErrors, eventDecision, hm, hm0, hmf,
            pinError_id_mismatch]

/-- Claim C4: on an HTTPS exchange, whatever the order and multiplicity of
the two signals, the deliveries that reach the caller are exactly the first
reject decision of the signal sequence — routed to the caller-supplied
completion callback when one was supplied, and emitted exactly once as an
`error` event on the request object otherwise. -/
theorem completion_latch_first_reject (reg : Registry) (url : String) (hasCb : Bool)
    (events : List TransportEvent) (h : jsUrlParseProtocol url = some "https:") :
    (runExchange reg url hasCb events).deliveries
      = ((pinErrors reg url events).take 1).map
          (fun e => if hasCb then PinDelivery.toCallback e else PinDelivery.asEvent e) := by
  unfold runExchange
  rw [if_pos h]
  simpa [initExchange] using
    foldl_handleEvent_fresh reg hasCb events (initExchange url hasCb) rfl

/-- Claim C4 witness: a handshake-unauthorized signal followed by a response
signal against an empty registry delivers exactly the first reject decision
to the supplied callback. -/
theorem completion_latch_first_reject_witness :
    (runExchange emptyFingerprints "https://example.com" true
        [TransportEvent.secureConnect false,
         TransportEvent.response "example.com" "AA"]).deliveries
      = ((pinErrors emptyFingerprints "https://example.com"
            [TransportEvent.secureConnect false,
             TransportEvent.response "example.com" "AA"]).take 1).map
          (fun e => PinDelivery.toCallback e) := by
  have h := completion_latch_first_reject emptyFingerprints "https://example.com" true
      [TransportEvent.secureConnect false,
       TransportEvent.response "example.com" "AA"] (by decide)
  simpa using h

/-- Claim C5 counterexample: `getDomain` keeps Node's `url.parse(...).host`,
which includes the port, so registering `https://example.com:443/path` stores
the entry under `example.com:443`, and looking up `example.com` does not
reach it. -/
theorem registered_port_not_stripped :
    addFingerprintRun "https://example.com:443/path" "AA:BB" emptyFingerprints
        "example.com:443" = some "AA:BB" ∧
    getFingerprintForURL
        (addFingerprintRun "https://example.com:443/path" "AA:BB" emptyFingerprints)
        "example.com" = none := by decide

/-- Claim C5 (amended): a full URL is normalized by stripping the scheme and
the path but retaining any explicit port, so registering
`https://example.com/path` and looking up `example.com` refer to the same
entry, while an explicit `:443` keys the entry under `example.com:443`. -/
theorem getDomain_strips_scheme_and_path :
    getDomain "https://example.com:443/path" = "example.com:443" ∧
    getDomain "https://example.com/path" = "example.com" ∧
    getFingerprintForURL
        (addFingerprintRun "https://example.com/path" "AA:BB" emptyFingerprints)
        "example.com" = some "AA:BB" := by decide

/-- Claim C6: `createErrorMessage` throws an internal-consistency fault (a
plain `Error`, distinct from the caller-facing `RequestSSLError`) when the
code is unknown or the supplied argument count differs from the entry's
required count, and otherwise returns the structured error carrying the
formatted message and the machine-checkable code as `id`. -/
theorem createErrorMessage_contract (code : String) (args : List String) :
    match errLookup code with
    | none => ∃ m, createErrorMessage code args = Except.error m
    | some entry =>
        if args.length = entry.argcount then
          createErrorMessage code args
            = Except.ok { message := utilFormat entry.message args, id := code }
        else ∃ m, createErrorMessage code args = Except.error m := by
  by_cases h1 : code = "request.ssl.security.domain.invalid"
  · subst h1
    rw [show errLookup "request.ssl.security.domain.invalid"
        = some { message := msgInvalid, argcount := 1 } from rfl]
    by_cases hl : args.length = 1
    · simp only [hl, if_pos rfl]
      simp [createErrorMessage, errLookup, ERRORS, hl]
    · simp only [if_neg hl]
      exact ⟨_, by simp [createErrorMessage, errLookup, ERRORS, Ne.symm hl]; rfl⟩
  · by_cases h2 : code = "request.ssl.security.domain.notauthorized"
    · subst h2
      rw [show errLookup "request.ssl.security.domain.notauthorized"
          = some { message := msgNotAuthorized, argcount := 1 } from rfl]
      by_cases hl : args.length = 1
      · simp only [hl, if_pos rfl]
        simp [createErrorMessage, errLookup, ERRORS, hl]
      · simp only [if_neg hl]
        exact ⟨_, by simp [createErrorMessage, errLookup, ERRORS, Ne.symm hl]; rfl⟩
    · by_cases h3 : code = "request.ssl.security.domain.fingerprint.mismatch"
      · subst h3
        rw [show errLookup "request.ssl.security.domain.fingerprint.mismatch"
            = some { message := msgMismatch, argcount := 1 } from rfl]
        by_cases hl : args.length = 1
        · simp only [hl, if_pos rfl]
          simp [createErrorMessage, errLookup, ERRORS, hl]
        · simp only [if_neg hl]
          exact ⟨_, by simp [createErrorMessage, errLookup, ERRORS, Ne.symm hl]; rfl⟩
      · have hb1 : ("request.ssl.security.domain.invalid" == code) = false :=
          beq_eq_false_iff_ne.mpr (Ne.symm h1)
        have hb2 : ("request.ssl.security.domain.notauthorized" == code) = false :=
          beq_eq_false_iff_ne.mpr (Ne.symm h2)
        have hb3 : ("request.ssl.security.domain.fingerprint.mismatch" == code) = false :=
          beq_eq_false_iff_ne.mpr (Ne.symm h3)
        have hnone : errLookup code = none := by
          simp [errLookup, ERRORS, List.find?, hb1, hb2, hb3]
        rw [hnone]
        exact ⟨_, by simp [createErrorMessage, hnone]; rfl⟩

/-- Claim C7: after any sequence of registrations for the same pattern, the
registry holds exactly the most recently registered (stripped) fingerprint
under that pattern, and an exact-match lookup returns it. -/
theorem addFingerprint_last_write_wins (reg : Registry) (u : String)
    (fs : List String) (f : String) (hu : u ≠ "") (hf : f ≠ "")
    (hs : stripSHA1Label f ≠ "") :
    addFingerprintRun u f (registerSeq u fs reg) (getDomain u)
        = some (stripSHA1Label f) ∧
    getFingerprintForURL (addFingerprintRun u f (registerSeq u fs reg)) u
        = some (stripSHA1Label f) := by
  have hrun : addFingerprintRun u f (registerSeq u fs reg)
      = fun k =>
          if k = getDomain u then some (stripSHA1Label f)
          else registerSeq u fs reg k := by
    simp [addFingerprintRun, addFingerprint, hu, hf]
  constructor
  · rw [hrun]
    simp
  · rw [getFingerprintForURL, hrun]
    simp [jsTruthyOpt, hs]

/-- Claim C7 witness: registering `example.com` three times leaves only the
last fingerprint retrievable. -/
theorem addFingerprint_last_write_wins_witness :
    addFingerprintRun "example.com" "CC"
        (registerSeq "example.com" ["AA", "BB"] emptyFingerprints)
        (getDomain "example.com") = some (stripSHA1Label "CC") ∧
    getFingerprintForURL
        (addFingerprintRun "example.com" "CC"
          (registerSeq "example.com" ["AA", "BB"] emptyFingerprints))
        "example.com" = some (stripSHA1Label "CC") :=
  addFingerprint_last_write_wins emptyFingerprints "example.com" ["AA", "BB"] "CC"
    (by decide) (by decide) (by decide)

/-- Claim C8: registering a fingerprint whose text begins with the
`SHA1 Fingerprint=` label stores only the text after the label, and that
stored value is what lookup returns. -/
theorem addFingerprint_strips_sha1_label (reg : Registry) (u : String)
    (hu : u ≠ "") :
    addFingerprintRun u "SHA1 Fingerprint=AA:BB:CC" reg (getDomain u)
        = some "AA:BB:CC" ∧
    getFingerprintForURL (addFingerprintRun u "SHA1 Fingerprint=AA:BB:CC" reg) u
        = some "AA:BB:CC" := by
  have hfp : ("SHA1 Fingerprint=AA:BB:CC" : String) ≠ "" := by decide
  have hst : stripSHA1Label "SHA1 Fingerprint=AA:BB:CC" = "AA:BB:CC" := rfl
  have hrun : addFingerprintRun u "SHA1 Fingerprint=AA:BB:CC" reg
      = fun k => if k = getDomain u then some "AA:BB:CC" else reg k := by
    simp [addFingerprintRun, addFingerprint, hu, hfp, hst]
  constructor
  · rw [hrun]
    simp
  · rw [getFingerprintForURL, hrun]
    simp [jsTruthyOpt]

/-- Claim C8 witness: registering `example.com` with
`SHA1 Fingerprint=AA:BB:CC` stores and returns `AA:BB:CC`. -/
theorem addFingerprint_strips_sha1_label_witness :
    addFingerprintRun "example.com" "SHA1 Fingerprint=AA:BB:CC" emptyFingerprints
        (getDomain "example.com") = some "AA:BB:CC" ∧
    getFingerprintForURL
        (addFingerprintRun "example.com" "SHA1 Fingerprint=AA:BB:CC"
          emptyFingerprints)
        "example.com" = some "AA:BB:CC" :=
  addFingerprint_strips_sha1_label emptyFingerprints "example.com" (by decide)

/-- Claim C9: `addFingerprint` with an empty url or an empty fingerprint text
throws an invalid-argument error and leaves the registry unchanged. -/
theorem addFingerprint_rejects_empty (reg : Registry) (url fp : String)
    (h : url = "" ∨ fp = "") :
    (∃ m, addFingerprint url fp reg = Except.error m) ∧
    addFingerprintRun url fp reg = reg := by
  rcases h with h | h
  · subst h
    exact ⟨⟨"missing name", by simp [addFingerprint]⟩,
      by simp [addFingerprintRun, addFingerprint]⟩
  · subst h
    by_cases hu : url = ""
    · subst hu
      exact ⟨⟨"missing name", by simp [addFingerprint]⟩,
        by simp [addFingerprintRun, addFingerprint]⟩
    · exact ⟨⟨"missing fingerprint", by simp [addFingerprint, hu]⟩,
        by simp [addFingerprintRun, addFingerprint, hu]⟩

/-- Claim C9 witness: registering with an empty url fails and leaves the
empty registry as it was. -/
theorem addFingerprint_rejects_empty_witness :
    (∃ m, addFingerprint "" "AA:BB" emptyFingerprints = Except.error m) ∧
    addFingerprintRun "" "AA:BB" emptyFingerprints = emptyFingerprints :=
  addFingerprint_rejects_empty emptyFingerprints "" "AA:BB" (Or.inl rfl)

/-- Claim C10: a request whose URL carries a non-`https:` scheme installs no
pinning machinery: the whole exchange state stays at its initial value — no
delivery, no abort, an untouched latch — for every registry (the right-hand
side does not mention the registry, so the fingerprint table is never
consulted) and every signal sequence. -/
theorem non_https_no_pinning (url p : String) (hp : jsUrlParseProtocol url = some p)
    (hps : p ≠ "https:") (reg : Registry) (hasCb : Bool)
    (events : List TransportEvent) :
    runExchange reg url hasCb events = initExchange url hasCb := by
  unfold runExchange
  rw [if_neg]
  intro hc
  rw [hp] at hc
  exact hps (Option.some.inj hc)

/-- Claim C10 witness: an `http:` request over a non-empty registry, fed an
unauthorized handshake and a mismatching response, still ends in the initial
exchange state. -/
theorem non_https_no_pinning_witness :
    runExchange (fun _ => some "ZZ") "http://example.com" true
        [TransportEvent.secureConnect false,
         TransportEvent.response "example.com" "AA"]
      = initExchange "http://example.com" true :=
  non_https_no_pinning "http://example.com" "http:" (by decide) (by decide)
    (fun _ => some "ZZ") true
    [TransportEvent.secureConnect false,
     TransportEvent.response "example.com" "AA"]

end RequestSSL
